import Mathlib

/-!
Shallow embedding of `cevent.py` (the cEvent periodic-task scheduler).

The Python module has three classes:
  * `EventThread`  — a daemon `threading.Thread` that captures the exception
    raised by its target and re-raises it from `join()`;
  * `Event`        — a scheduled task: callable, interval, optional callback,
    last-call timestamp and the list of spawned worker threads;
  * `EventManager` — the scheduler: event list, driver thread, flags, and the
    captured child exception.

Modelling conventions:
  * Exceptions are abstract codes (`Exn := Nat`).  A fallible computation is
    an `Except Exn _`; a Python statement sequence that may raise is a Lean
    function returning its updated state paired with `Option Exn` (the
    propagating exception, if any).
  * Clock readings (`time.time()`) are rationals passed in explicitly as
    `now`; each driver-loop pass receives one reading.
  * A worker thread is modelled with its eventual outcome (`exception`: the
    error its wrapped run will have captured by the time it finishes, if
    any), the `isJoined` bookkeeping flag, an `alive` flag giving whether
    `is_alive()` observes it still running at the current instant, and its
    `daemon` flag.  Thread liveness evolves between observation points; the
    theorems quantify over states, which covers the possible interleavings.
  * Joins are modelled as performed from a different thread than the one
    being joined (the driver or the stopping caller), which is the situation
    the analysed claims are about; the self-join warning path of
    `EventThread.join` is not exercised by them.
-/

namespace CEvent

/-- Exception values, abstractly: distinct codes stand for distinct Python
exception objects. -/
abbrev Exn : Type := Nat

/-- `EventThread`: daemon worker thread with exception capture
(`cevent.py`, class `EventThread`).  `exception` holds the outcome its
`_wrapped_run` stores by completion (`None` / `none` when the target returns
normally). -/
structure EventThread where
  exception : Option Exn
  isJoined : Bool
  alive : Bool
  daemon : Bool
deriving Repr, DecidableEq

/-- `EventThread.__init__`: wraps the run target with exception capture,
`setDaemon(True)`, `isJoined = False`.  `outcome` is the exception the
wrapped target will raise when run, if any. -/
def EventThread.init (outcome : Option Exn) : EventThread :=
  { exception := outcome, isJoined := false, alive := true, daemon := true }

/-- The state mutation `EventThread.join` performs on the thread: the join
completes (thread no longer alive) and `self.isJoined = True` is set. -/
def markJoined (t : EventThread) : EventThread :=
  { t with isJoined := true, alive := false }

/-- `EventThread.join`: blocks until the thread finishes, marks it joined,
then raises the saved exception if there is one.  Returned as (mutated
thread, propagating exception). -/
def EventThread.join (t : EventThread) : EventThread × Option Exn :=
  (markJoined t, t.exception)

/-- `Event` (`cevent.py`, class `Event`): one scheduled task.  The callable
is modelled by its outcome `callable` (an `Except`), the callback by an
optional function from the callable's result to an outcome. -/
structure Event (R : Type) where
  callable : Except Exn R
  timeBetweenCalls : ℚ
  callback : Option (R → Except Exn R)
  spawnThread : Bool
  lastCallTime : ℚ
  threads : List EventThread

/-- `Event.__init__`: stores the configuration, `_lastCallTime = 0`,
`_threads = []`. -/
def Event.init {R : Type} (thingToCall : Except Exn R) (timeBetweenCalls : ℚ)
    (spawnThread : Bool) (callback : Option (R → Except Exn R)) : Event R :=
  { callable := thingToCall, timeBetweenCalls := timeBetweenCalls,
    callback := callback, spawnThread := spawnThread,
    lastCallTime := 0, threads := [] }

/-- `Event._shouldCall`: `self._lastCallTime + self._timeBetweenCalls <
time.time()` (strict comparison, as in the source). -/
def Event._shouldCall {R : Type} (e : Event R) (now : ℚ) : Bool :=
  decide (e.lastCallTime + e.timeBetweenCalls < now)

/-- Outcome of the non-spawning branch of `Event._call`: invoke the
callable; if a callback is configured, feed it the result.  An exception
from either propagates. -/
def Event.syncResult {R : Type} (e : Event R) : Except Exn R :=
  match e.callable with
  | .error ex => .error ex
  | .ok r =>
    match e.callback with
    | none => .ok r
    | some cb => cb r

/-- What `Event._call` hands back to its direct caller: the spawned
`EventThread` object (async branch), the returned value (sync branch), or a
propagating exception (sync branch raising). -/
inductive CallResult (R : Type) where
  | spawned (t : EventThread)
  | value (r : R)
  | raised (ex : Exn)
deriving Repr

/-- The error component of an `Except`, used for the exception an async
worker will have captured once its wrapped run finishes. -/
def errOf {R : Type} : Except Exn R → Option Exn
  | .error ex => some ex
  | .ok _ => none

/-- `Event._call` as invoked by the driver (`iAmAThread = False`).  Async
branch: spawn an `EventThread` running `_call(True)` (whose captured
exception is the sync outcome's error), start it, append it to `_threads`,
and return the thread object.  Sync branch: set `_lastCallTime = time.time()`
just before invoking the callable, invoke it, then the callback if present.
The timestamp update the spawned worker itself performs later, at its own
run time, lies outside the single-instant state this function returns. -/
def Event._call {R : Type} (e : Event R) (now : ℚ) : Event R × CallResult R :=
  if e.spawnThread then
    (( { e with threads := e.threads ++ [EventThread.init (errOf e.syncResult)] } ),
      .spawned (EventThread.init (errOf e.syncResult)))
  else
    ({ e with lastCallTime := now },
      match e.syncResult with
      | .ok r => .value r
      | .error ex => .raised ex)

/-- The `for` loop of `Event._joinDeadThreads`: walk `_threads` in order;
join each thread that is not alive (which may raise).  Returns the list as
mutated so far and the propagating exception, if any; on a raise the
remaining threads are left untouched. -/
def joinDeadLoop : List EventThread → List EventThread × Option Exn
  | [] => ([], none)
  | t :: rest =>
    if t.alive then
      (t :: (joinDeadLoop rest).1, (joinDeadLoop rest).2)
    else
      match (t.join).2 with
      | some ex => ((t.join).1 :: rest, some ex)
      | none => ((t.join).1 :: (joinDeadLoop rest).1, (joinDeadLoop rest).2)

/-- `Event._joinDeadThreads`: run the join loop; only when it completes
without raising does the source reach the line
`self._threads = [i for i in self._threads if not i.isJoined]` — when the
loop raises, that filter is skipped and the exception propagates. -/
def Event._joinDeadThreads {R : Type} (e : Event R) : Event R × Option Exn :=
  match (joinDeadLoop e.threads).2 with
  | some ex => ({ e with threads := (joinDeadLoop e.threads).1 }, some ex)
  | none =>
    ({ e with threads := ((joinDeadLoop e.threads).1).filter (fun t => !t.isJoined) },
      none)

/-- `Event.callIfShouldCall`: if `_shouldCall()`, run `_call()` and then
`_joinDeadThreads()`; an exception from either propagates. -/
def Event.callIfShouldCall {R : Type} (e : Event R) (now : ℚ) :
    Event R × Option Exn :=
  if e._shouldCall now then
    match (e._call now).2 with
    | .raised ex => ((e._call now).1, some ex)
    | _ => (e._call now).1._joinDeadThreads
  else
    (e, none)

/-- The `for` loop of `Event.join`: join every tracked thread in insertion
order; the first raised exception propagates, leaving the remaining threads
unjoined. -/
def joinAllLoop : List EventThread → List EventThread × Option Exn
  | [] => ([], none)
  | t :: rest =>
    match (t.join).2 with
    | some ex => ((t.join).1 :: rest, some ex)
    | none => ((t.join).1 :: (joinAllLoop rest).1, (joinAllLoop rest).2)

/-- `Event.join`: join all sub-threads, then clear `_threads` — the clearing
line `self._threads = []` is only reached when no join raised. -/
def Event.join {R : Type} (e : Event R) : Event R × Option Exn :=
  match (joinAllLoop e.threads).2 with
  | some ex => ({ e with threads := (joinAllLoop e.threads).1 }, some ex)
  | none => ({ e with threads := [] }, none)

/-- The driver thread created by `EventManager.start`: a plain
`threading.Thread` — the source never sets its daemon flag, so it inherits
the creating thread's daemon status. -/
structure DriverThread where
  daemon : Bool
deriving Repr, DecidableEq

/-- `EventManager` (`cevent.py`, class `EventManager`). -/
structure EventManager (R : Type) where
  thread : Option DriverThread
  shouldContinue : Bool
  running : Bool
  eventList : List (Event R)
  eventsSpawnThreads : Bool
  stopInProgress : Bool
  childException : Option Exn

/-- `EventManager.__init__`. -/
def EventManager.init {R : Type} (eventsSpawnThreads : Bool) : EventManager R :=
  { thread := none, shouldContinue := true, running := false, eventList := [],
    eventsSpawnThreads := eventsSpawnThreads, stopInProgress := false,
    childException := none }

/-- `EventManager.addEvent`: append a fresh `Event` built with the
manager's spawn default. -/
def EventManager.addEvent {R : Type} (m : EventManager R)
    (thingToCall : Except Exn R) (timeBetweenCalls : ℚ)
    (callback : Option (R → Except Exn R)) : EventManager R :=
  { m with eventList :=
      m.eventList ++ [Event.init thingToCall timeBetweenCalls m.eventsSpawnThreads callback] }

/-- `EventManager.start`: set `_shouldContinue = True` and spawn the driver
as a plain `threading.Thread` whose daemon flag is inherited from the
calling thread (`callerIsDaemon`; `False` when called from the main
thread). -/
def EventManager.start {R : Type} (m : EventManager R) (callerIsDaemon : Bool) :
    EventManager R :=
  { m with shouldContinue := true, thread := some { daemon := callerIsDaemon } }

/-- The `for i in self._eventList: i.callIfShouldCall()` body of one
`_execute` pass, with the surrounding `try`: on the first exception the
remaining events of the pass are not processed. -/
def execPass {R : Type} : List (Event R) → ℚ → List (Event R) × Option Exn
  | [], _ => ([], none)
  | e :: rest, now =>
    match (e.callIfShouldCall now).2 with
    | some ex => ((e.callIfShouldCall now).1 :: rest, some ex)
    | none => ((e.callIfShouldCall now).1 :: (execPass rest now).1, (execPass rest now).2)

/-- The `while self._shouldContinue` loop of `_execute`, fuelled by the list
of successive clock readings observed while the continue flag stays true
(the flag is flipped concurrently by `stop()`, which bounds how many passes
run).  A pass raising breaks out of the loop. -/
def execLoop {R : Type} : List (Event R) → List ℚ → List (Event R) × Option Exn
  | evs, [] => (evs, none)
  | evs, t :: rest =>
    match (execPass evs t).2 with
    | some ex => ((execPass evs t).1, some ex)
    | none => execLoop (execPass evs t).1 rest

/-- `EventManager._execute`: sets `_running = True`, loops while the
continue flag holds; on a child exception stores it in
`self.childException` and breaks; finally sets `_running = False`. -/
def EventManager._execute {R : Type} (m : EventManager R) (times : List ℚ) :
    EventManager R :=
  if m.shouldContinue then
    { m with
      eventList := (execLoop m.eventList times).1,
      childException :=
        (match (execLoop m.eventList times).2 with
         | some ex => some ex
         | none => m.childException),
      running := false }
  else
    { m with running := false }

/-- The `for i in self._eventList: i.join()` drain inside `stop()`: events
are joined in registration order; the first exception propagates, leaving
the remaining events untouched. -/
def joinEventsLoop {R : Type} : List (Event R) → List (Event R) × Option Exn
  | [] => ([], none)
  | e :: rest =>
    match (e.join).2 with
    | some ex => ((e.join).1 :: rest, some ex)
    | none => ((e.join).1 :: (joinEventsLoop rest).1, (joinEventsLoop rest).2)

/-- `EventManager.stop`: when a stop is already in progress, only a warning
is logged — no state change, nothing joined, nothing raised.  Otherwise:
`_stopInProgress = True`, `_shouldContinue = False`, join the driver thread
(a plain `Thread.join`, which raises nothing), then join every event; the
final `self._stopInProgress = False` is only reached when no event join
raised. -/
def EventManager.stop {R : Type} (m : EventManager R) :
    EventManager R × Option Exn :=
  if m.stopInProgress then
    (m, none)
  else
    match (joinEventsLoop m.eventList).2 with
    | some ex =>
      ({ m with stopInProgress := true, shouldContinue := false,
                eventList := (joinEventsLoop m.eventList).1 }, some ex)
    | none =>
      ({ m with stopInProgress := false, shouldContinue := false,
                eventList := (joinEventsLoop m.eventList).1 }, none)

/-! ### Concrete fixtures used to evaluate the model -/

/-- A finished worker whose work failed with exception `7`. -/
def tFail : EventThread :=
  { exception := some 7, isJoined := false, alive := false, daemon := true }

/-- An event tracking the failed worker `tFail`. -/
def evTracked : Event Int :=
  { callable := .ok 0, timeBetweenCalls := 1, callback := none,
    spawnThread := true, lastCallTime := 0, threads := [tFail] }

/-- A manager whose only event tracks a failed worker, with no stop in
progress and no captured child exception. -/
def mTracked : EventManager Int :=
  { thread := some { daemon := false }, shouldContinue := true, running := false,
    eventList := [evTracked], eventsSpawnThreads := true, stopInProgress := false,
    childException := none }

/-- A synchronous event whose callable raises exception `3`, due
immediately. -/
def evSyncFail : Event Int :=
  { callable := .error 3, timeBetweenCalls := 0, callback := none,
    spawnThread := false, lastCallTime := 0, threads := [] }

/-- A synchronous event with a long interval, not yet due at small clock
readings. -/
def evIdle : Event Int :=
  { callable := .ok 1, timeBetweenCalls := 100, callback := none,
    spawnThread := false, lastCallTime := 0, threads := [] }

/-- A running manager whose first event fails synchronously when polled. -/
def mDrive : EventManager Int :=
  { thread := none, shouldContinue := true, running := true,
    eventList := [evSyncFail, evIdle], eventsSpawnThreads := false,
    stopInProgress := false, childException := none }

/-- A dead worker with captured exception `5`. -/
def tDead5 : EventThread :=
  { exception := some 5, isJoined := false, alive := false, daemon := true }

/-- An event tracking the dead failed worker `tDead5`. -/
def evReap : Event Int :=
  { callable := .ok 0, timeBetweenCalls := 1, callback := none,
    spawnThread := true, lastCallTime := 0, threads := [tDead5] }

/-- A still-running worker whose work will have failed with exception `9`
by the time it is joined. -/
def tFail9 : EventThread :=
  { exception := some 9, isJoined := false, alive := true, daemon := true }

/-- An event tracking the failing worker `tFail9`. -/
def evDrain : Event Int :=
  { callable := .ok 0, timeBetweenCalls := 1, callback := none,
    spawnThread := true, lastCallTime := 0, threads := [tFail9] }

/-- A fresh event with no outstanding workers. -/
def evEmptyW : Event Int := Event.init (.ok 0) 1 true none

/-- An event whose last call was at clock 0 with interval 5, polled at the
exact boundary instant 5. -/
def evBoundary : Event Int :=
  { callable := .ok 0, timeBetweenCalls := 5, callback := none,
    spawnThread := false, lastCallTime := 0, threads := [] }

/-- A freshly registered event with interval 20. -/
def evFresh : Event Int := Event.init (.ok 0) 20 false none

/-- A synchronous event with a callback that adds one to the result. -/
def evSyncCb : Event Int :=
  { callable := .ok 4, timeBetweenCalls := 2, callback := some (fun r => .ok (r + 1)),
    spawnThread := false, lastCallTime := 0, threads := [] }

/-- A manager observed while a `stop()` is already in progress. -/
def mStopping : EventManager Int :=
  { thread := none, shouldContinue := false, running := false,
    eventList := [evTracked], eventsSpawnThreads := true, stopInProgress := true,
    childException := none }

/-- A freshly constructed manager. -/
def mFresh : EventManager Int := EventManager.init true

/-- An asynchronous event with no workers yet. -/
def evSpawn : Event Int :=
  { callable := .ok 0, timeBetweenCalls := 1, callback := none,
    spawnThread := true, lastCallTime := 0, threads := [] }

/-- A manager whose only event tracks the failing worker `tFail9`. -/
def mLatch : EventManager Int :=
  { thread := none, shouldContinue := true, running := false,
    eventList := [evDrain], eventsSpawnThreads := true, stopInProgress := false,
    childException := none }

/-! ### Helper lemmas about the join loops -/

/-- If the all-join loop raises, some tracked thread carries that
exception. -/
theorem joinAllLoop_some_mem (ts : List EventThread) (ex : Exn)
    (h : (joinAllLoop ts).2 = some ex) : ∃ t ∈ ts, t.exception = some ex := by
  induction ts with
  | nil => simp [joinAllLoop] at h
  | cons t rest ih =>
    cases hex : t.exception with
    | some e =>
      have h2 : (joinAllLoop (t :: rest)).2 = some e := by
        simp [joinAllLoop, EventThread.join, hex]
      rw [h2] at h
      exact ⟨t, by simp, hex.trans h⟩
    | none =>
      have h2 : (joinAllLoop (t :: rest)).2 = (joinAllLoop rest).2 := by
        simp [joinAllLoop, EventThread.join, hex]
      rw [h2] at h
      obtain ⟨u, hu, hue⟩ := ih h
      exact ⟨u, by simp [hu], hue⟩

/-- Full shape of a failing all-join pass: the threads before the first
failing one are exception-free and get joined, the failing one is joined,
the rest is untouched. -/
theorem joinAllLoop_fail_decomp (ts : List EventThread) (ex : Exn)
    (h : (joinAllLoop ts).2 = some ex) :
    ∃ pre t post, ts = pre ++ t :: post ∧ (∀ u ∈ pre, u.exception = none) ∧
      t.exception = some ex ∧
      (joinAllLoop ts).1 = pre.map markJoined ++ markJoined t :: post := by
  induction ts with
  | nil => simp [joinAllLoop] at h
  | cons t rest ih =>
    cases hex : t.exception with
    | some e =>
      have he : e = ex := by
        have h2 : (joinAllLoop (t :: rest)).2 = some e := by
          simp [joinAllLoop, EventThread.join, hex]
        exact Option.some.inj (h2.symm.trans h)
      refine ⟨[], t, rest, by simp, by simp, by rw [hex, he], ?_⟩
      simp [joinAllLoop, EventThread.join, hex]
    | none =>
      have h2 : (joinAllLoop (t :: rest)).2 = (joinAllLoop rest).2 := by
        simp [joinAllLoop, EventThread.join, hex]
      rw [h2] at h
      obtain ⟨pre, u, post, hdecomp, hpre, hue, hres⟩ := ih h
      refine ⟨t :: pre, u, post, by simp [hdecomp], ?_, hue, ?_⟩
      · intro v hv
        rcases List.mem_cons.mp hv with hv | hv
        · rw [hv]; exact hex
        · exact hpre v hv
      · have hstep : (joinAllLoop (t :: rest)).1 = markJoined t :: (joinAllLoop rest).1 := by
          simp [joinAllLoop, EventThread.join, hex]
        rw [hstep, hres]
        simp

/-- A clean all-join pass marks every thread joined. -/
theorem joinAllLoop_none_eq (ts : List EventThread)
    (h : (joinAllLoop ts).2 = none) :
    (joinAllLoop ts).1 = ts.map markJoined := by
  induction ts with
  | nil => simp [joinAllLoop]
  | cons t rest ih =>
    cases hex : t.exception with
    | some e =>
      have h2 : (joinAllLoop (t :: rest)).2 = some e := by
        simp [joinAllLoop, EventThread.join, hex]
      rw [h2] at h; exact absurd h (by simp)
    | none =>
      have h2 : (joinAllLoop (t :: rest)).2 = (joinAllLoop rest).2 := by
        simp [joinAllLoop, EventThread.join, hex]
      rw [h2] at h
      simp [joinAllLoop, EventThread.join, hex, ih h]

/-- If the event-drain loop inside `stop()` raises, the exception came from
a worker tracked by one of the events. -/
theorem joinEventsLoop_some_mem {R : Type} (es : List (Event R)) (ex : Exn)
    (h : (joinEventsLoop es).2 = some ex) :
    ∃ e ∈ es, ∃ t ∈ e.threads, t.exception = some ex := by
  induction es with
  | nil => simp [joinEventsLoop] at h
  | cons e rest ih =>
    cases hj : (e.join).2 with
    | some ex2 =>
      have h2 : (joinEventsLoop (e :: rest)).2 = some ex2 := by
        simp [joinEventsLoop, hj]
      rw [h2] at h
      have hx : ex2 = ex := Option.some.inj h
      have hthreads : (joinAllLoop e.threads).2 = some ex2 := by
        unfold Event.join at hj
        cases hl : (joinAllLoop e.threads).2 with
        | some a => rw [hl] at hj; simpa using hj
        | none => rw [hl] at hj; simp at hj
      obtain ⟨t, ht, hte⟩ := joinAllLoop_some_mem _ _ hthreads
      exact ⟨e, by simp, t, ht, by rw [hte, hx]⟩
    | none =>
      have h2 : (joinEventsLoop (e :: rest)).2 = (joinEventsLoop rest).2 := by
        simp [joinEventsLoop, hj]
      rw [h2] at h
      obtain ⟨e2, he2, t, ht, hte⟩ := ih h
      exact ⟨e2, by simp [he2], t, ht, hte⟩

/-- A clean dead-join pass leaves alive threads untouched and marks dead
ones joined. -/
theorem joinDeadLoop_none_eq (ts : List EventThread)
    (h : (joinDeadLoop ts).2 = none) :
    (joinDeadLoop ts).1 = ts.map (fun t => if t.alive then t else markJoined t) := by
  induction ts with
  | nil => simp [joinDeadLoop]
  | cons t rest ih =>
    cases ha : t.alive
    · cases hex : t.exception with
      | some e =>
        have h2 : (joinDeadLoop (t :: rest)).2 = some e := by
          simp [joinDeadLoop, ha, EventThread.join, hex]
        rw [h2] at h; exact absurd h (by simp)
      | none =>
        have h2 : (joinDeadLoop (t :: rest)).2 = (joinDeadLoop rest).2 := by
          simp [joinDeadLoop, ha, EventThread.join, hex]
        rw [h2] at h
        simp [joinDeadLoop, ha, EventThread.join, hex, ih h]
    · have h2 : (joinDeadLoop (t :: rest)).2 = (joinDeadLoop rest).2 := by
        simp [joinDeadLoop, ha]
      rw [h2] at h
      simp [joinDeadLoop, ha, ih h]

/-- `markJoined` sets the joined flag. -/
theorem markJoined_isJoined (t : EventThread) : (markJoined t).isJoined = true := rfl

/-- Filtering the un-joined threads after a clean dead-join pass keeps
exactly the threads that were alive (and not already joined). -/
theorem filter_after_deadJoin (ts : List EventThread) :
    ((ts.map (fun t => if t.alive then t else markJoined t)).filter
        (fun t => !t.isJoined))
      = ts.filter (fun t => t.alive && !t.isJoined) := by
  induction ts with
  | nil => rfl
  | cons t rest ih =>
    cases ha : t.alive
    · simp [List.filter, markJoined_isJoined, ha, ih]
    · cases hj : t.isJoined <;> simp [List.filter, ha, hj, ih]

/-- A dead-join pass that hits a dead thread with a captured exception —
after a prefix of threads that are alive or exception-free — joins the
prefix's dead members, joins the failing thread, raises, and leaves the
suffix untouched. -/
theorem joinDeadLoop_fail (t : EventThread) (post : List EventThread) (ex : Exn)
    (ht : t.alive = false) (hex : t.exception = some ex)
    (pre : List EventThread)
    (hpre : ∀ u ∈ pre, u.alive = true ∨ u.exception = none) :
    joinDeadLoop (pre ++ t :: post) =
      (pre.map (fun u => if u.alive then u else markJoined u)
        ++ markJoined t :: post, some ex) := by
  induction pre with
  | nil => simp [joinDeadLoop, ht, hex, EventThread.join]
  | cons u pre ih =>
    have hrec := ih (fun v hv => hpre v (List.mem_cons_of_mem _ hv))
    cases hu : u.alive
    · rcases hpre u (List.mem_cons_self _ _) with h1 | h1
      · rw [hu] at h1; exact absurd h1 (by simp)
      · simp [joinDeadLoop, hu, EventThread.join, h1, hrec]
    · simp [joinDeadLoop, hu, hrec]

/-- Branch form of `_joinDeadThreads` when the loop raises. -/
theorem joinDeadThreads_eq_some {R : Type} (e : Event R) (ex : Exn)
    (h : (joinDeadLoop e.threads).2 = some ex) :
    e._joinDeadThreads =
      ({ e with threads := (joinDeadLoop e.threads).1 }, some ex) := by
  unfold Event._joinDeadThreads
  rw [h]

/-- Branch form of `_joinDeadThreads` when the loop completes cleanly. -/
theorem joinDeadThreads_eq_none {R : Type} (e : Event R)
    (h : (joinDeadLoop e.threads).2 = none) :
    e._joinDeadThreads =
      ({ e with
          threads := ((joinDeadLoop e.threads).1).filter (fun t => !t.isJoined) },
        none) := by
  unfold Event._joinDeadThreads
  rw [h]

/-- Branch form of `Event.join` when a thread join raises. -/
theorem join_eq_some {R : Type} (e : Event R) (ex : Exn)
    (h : (joinAllLoop e.threads).2 = some ex) :
    e.join = ({ e with threads := (joinAllLoop e.threads).1 }, some ex) := by
  unfold Event.join
  rw [h]

/-- Branch form of `Event.join` when every thread join completes cleanly. -/
theorem join_eq_none {R : Type} (e : Event R)
    (h : (joinAllLoop e.threads).2 = none) :
    e.join = ({ e with threads := [] }, none) := by
  unfold Event.join
  rw [h]

/-! ### Helper lemmas about the driver loop -/

/-- A driver pass in which every event before `e` polls cleanly and `e`
raises: the pre-segment is processed, `e`'s mutation is kept, the raised
exception propagates, and the events after `e` are untouched. -/
theorem execPass_fail {R : Type} (t : ℚ) (e : Event R) (post : List (Event R))
    (ex : Exn) (pre : List (Event R))
    (hpre : ∀ p ∈ pre, (p.callIfShouldCall t).2 = none)
    (he : (e.callIfShouldCall t).2 = some ex) :
    execPass (pre ++ e :: post) t =
      (pre.map (fun p => (p.callIfShouldCall t).1)
        ++ (e.callIfShouldCall t).1 :: post, some ex) := by
  induction pre with
  | nil => simp [execPass, he]
  | cons p pre ih =>
    have hp := hpre p (List.mem_cons_self _ _)
    have hrec := ih (fun q hq => hpre q (List.mem_cons_of_mem _ hq))
    simp [execPass, hp, hrec]

/-! ### Helper lemmas about `stop()` -/

/-- The guarded branch of `stop()`: with a stop already in progress the call
changes nothing and raises nothing. -/
theorem stop_of_stopInProgress {R : Type} (m : EventManager R)
    (h : m.stopInProgress = true) : m.stop = (m, none) := by
  simp [EventManager.stop, h]

/-- `stop()` never writes `childException`. -/
theorem stop_childException_eq {R : Type} (m : EventManager R) :
    (m.stop).1.childException = m.childException := by
  cases hs : m.stopInProgress
  · cases hj : (joinEventsLoop m.eventList).2 <;>
      simp [EventManager.stop, hs, hj]
  · simp [EventManager.stop, hs]

/-- When `stop()` propagates an exception it has come through the event
drain, and the stop-in-progress flag is left set. -/
theorem stop_fail_flag {R : Type} (m : EventManager R) (ex : Exn)
    (h : (m.stop).2 = some ex) :
    (m.stop).1.stopInProgress = true ∧
      (joinEventsLoop m.eventList).2 = some ex := by
  cases hs : m.stopInProgress
  · cases hj : (joinEventsLoop m.eventList).2 with
    | some e =>
      have hx : e = ex := by
        simp [EventManager.stop, hs, hj] at h; exact h
      constructor
      · simp [EventManager.stop, hs, hj]
      · exact congrArg some hx
    | none => simp [EventManager.stop, hs, hj] at h
  · rw [stop_of_stopInProgress m hs] at h; simp at h

/-! ### Claim theorems -/

/-- C5, counterexample: the claim says a poll at exactly
`lastInvocation + interval` fires the task.  At `lastCallTime = 0`,
`timeBetweenCalls = 5`, `now = 5` we have `now ≥ lastCallTime +
timeBetweenCalls`, yet `_shouldCall` — which uses a strict comparison — says
the task is not due. -/
theorem due_boundary_counterexample :
    evBoundary.lastCallTime + evBoundary.timeBetweenCalls ≤ (5 : ℚ) ∧
      evBoundary._shouldCall 5 = false := by
  constructor
  · show (0 : ℚ) + 5 ≤ 5
    norm_num
  · show decide ((0 : ℚ) + 5 < 5) = false
    exact decide_eq_false (by norm_num)

/-- C5, amended: for every task state and every current time `now`, the
task is judged due exactly when `now` is strictly greater than
`lastInvocation + interval` (a poll at exactly `lastInvocation + interval`
does not fire the task). -/
theorem due_strict {R : Type} (e : Event R) (now : ℚ) :
    e._shouldCall now = true ↔ e.lastCallTime + e.timeBetweenCalls < now := by
  simp [Event._shouldCall]

/-- C5, witness: the amended due predicate evaluated just past the
boundary. -/
theorem due_strict_witness : evBoundary._shouldCall 6 = true :=
  (due_strict evBoundary 6).mpr (by show (0 : ℚ) + 5 < 6; norm_num)

/-- C6, counterexample: a freshly registered task with interval `20 ≥ 0`,
polled first at clock reading `10` (at/after its registration), does not
fire — refuting "fires on the very first poll regardless of how large the
interval is".  (`_shouldCall` compares the interval against the absolute
clock reading, since the fresh timestamp is the epoch start `0`.) -/
theorem first_poll_counterexample :
    evFresh.lastCallTime = 0 ∧ (0 : ℚ) ≤ 20 ∧ evFresh._shouldCall 10 = false := by
  refine ⟨rfl, by norm_num, ?_⟩
  show decide ((0 : ℚ) + 20 < 10) = false
  exact decide_eq_false (by norm_num)

/-- C6, amended: a freshly registered task has its last-invocation
timestamp set to the epoch start `0`, and fires on a first poll at clock
reading `now` exactly when its interval is strictly below `now` (the
absolute epoch timestamp) — immediate first fire for every practical
interval, but not regardless of how large the interval is. -/
theorem first_poll_amended {R : Type} (thingToCall : Except Exn R) (tb : ℚ)
    (sp : Bool) (cb : Option (R → Except Exn R)) (now : ℚ) :
    (Event.init thingToCall tb sp cb).lastCallTime = 0 ∧
      ((Event.init thingToCall tb sp cb)._shouldCall now = true ↔ tb < now) := by
  refine ⟨rfl, ?_⟩
  simp [Event.init, Event._shouldCall]

/-- C6, witness: the amended first-poll characterisation at interval 20 and
clock readings 10 and 30. -/
theorem first_poll_amended_witness :
    ((Event.init (Except.ok (0 : Int)) 20 false none).lastCallTime = 0 ∧
      ((Event.init (Except.ok (0 : Int)) 20 false none)._shouldCall 30 = true ↔
        (20 : ℚ) < 30)) :=
  first_poll_amended (Except.ok (0 : Int)) 20 false none 30

/-- C7: synchronous dispatch sets the last-invocation timestamp to the
current clock reading (even when the callable raises — the update precedes
the invocation), returns the callable's own result when no callback is
configured, and returns the callback-transformed result when one is. -/
theorem sync_dispatch {R : Type} (e : Event R) (now : ℚ)
    (h : e.spawnThread = false) :
    (e._call now).1 = { e with lastCallTime := now } ∧
      (∀ r, e.callable = .ok r → e.callback = none →
        (e._call now).2 = .value r) ∧
      (∀ r cb v, e.callable = .ok r → e.callback = some cb → cb r = .ok v →
        (e._call now).2 = .value v) ∧
      (∀ ex, e.callable = .error ex → (e._call now).2 = .raised ex) := by
  refine ⟨?_, ?_, ?_, ?_⟩
  · simp [Event._call, h]
  · intro r h1 h2
    simp [Event._call, h, Event.syncResult, h1, h2]
  · intro r cb v h1 h2 h3
    simp [Event._call, h, Event.syncResult, h1, h2, h3]
  · intro ex h1
    simp [Event._call, h, Event.syncResult, h1]

/-- C7, witness: synchronous dispatch of a callable returning 4 with an
add-one callback at clock 9 updates the timestamp and returns 5. -/
theorem sync_dispatch_witness :
    (evSyncCb._call 9).1 = { evSyncCb with lastCallTime := 9 } ∧
      (evSyncCb._call 9).2 = .value 5 :=
  ⟨(sync_dispatch evSyncCb 9 rfl).1,
    (sync_dispatch evSyncCb 9 rfl).2.2.1 4 (fun r => .ok (r + 1)) 5 rfl rfl rfl⟩

/-- C8: a `stop()` call that begins while the stop-in-progress flag is
already set returns the manager completely unchanged (continue flag, driver
handle, event list with every tracked-worker collection, and all other
fields) and raises nothing — a silent no-op. -/
theorem stop_reentrant_nop {R : Type} (m : EventManager R)
    (h : m.stopInProgress = true) : m.stop = (m, none) :=
  stop_of_stopInProgress m h

/-- C8, witness: the no-op on a concrete manager mid-stop. -/
theorem stop_reentrant_nop_witness : mStopping.stop = (mStopping, none) :=
  stop_reentrant_nop mStopping rfl

/-- C9, counterexample: the driver thread created by `start()` — a plain
`threading.Thread` inheriting the non-daemon status of the main thread that
calls `start()` — is not a daemon thread, refuting "every thread the system
creates is marked as a daemon thread". -/
theorem daemon_counterexample :
    ((mFresh.start false).thread).map DriverThread.daemon = some false := rfl

/-- C9, amended: every worker thread spawned by asynchronous dispatch is
created with the daemon flag set, but the driver-loop thread started by
`start()` merely inherits the calling thread's daemon status — it is not
marked daemonic, so it is a non-daemon thread when `start()` is called from
the main thread. -/
theorem daemon_flags {R : Type} :
    (∀ o : Option Exn, (EventThread.init o).daemon = true) ∧
      (∀ (e : Event R) (now : ℚ) (t : EventThread),
        (e._call now).2 = .spawned t → t.daemon = true) ∧
      (∀ (m : EventManager R) (cd : Bool),
        (m.start cd).thread = some { daemon := cd }) := by
  refine ⟨fun o => rfl, ?_, fun m cd => rfl⟩
  intro e now t h
  unfold Event._call at h
  cases hs : e.spawnThread
  · rw [hs] at h
    simp at h
    cases hsr : e.syncResult with
    | ok r => rw [hsr] at h; simp at h
    | error ex2 => rw [hsr] at h; simp at h
  · rw [hs] at h
    simp at h
    rw [← h]
    rfl

/-- C9, witness: a concrete asynchronous dispatch spawns a daemon worker. -/
theorem daemon_flags_witness :
    ∃ t, (evSpawn._call 1).2 = CallResult.spawned t ∧ t.daemon = true :=
  ⟨EventThread.init (errOf evSpawn.syncResult), rfl,
    daemon_flags.2.1 evSpawn 1 _ rfl⟩

/-- Evaluation helper: the event `evSyncFail`, polled at clock 1, is due,
dispatches synchronously, and raises its callable's exception `3`. -/
theorem evSyncFail_poll :
    evSyncFail.callIfShouldCall 1 = ({ evSyncFail with lastCallTime := 1 }, some 3) := by
  have hdue : evSyncFail._shouldCall 1 = true := by
    show decide ((0 : ℚ) + 0 < 1) = true
    exact decide_eq_true (by norm_num)
  have hsp : evSyncFail.spawnThread = false := rfl
  have hsync : evSyncFail.syncResult = .error 3 := rfl
  simp [Event.callIfShouldCall, hdue, Event._call, hsp, hsync]

/-- C1, counterexample: on a scheduler whose task tracks a failed worker,
`stop()` propagates the worker failure (exception `7`) to its caller, and
the child-failure field is still unpopulated afterwards even though the
task's dispatched work failed — refuting both halves of the claim. -/
theorem stop_propagation_counterexample :
    (mTracked.stop).2 = some 7 ∧ (mTracked.stop).1.childException = none ∧
      tFail.exception = some 7 :=
  ⟨rfl, rfl, rfl⟩

/-- C1, amended: `stop()` never re-raises or alters the captured child
failure — the field is unchanged by `stop()` — but `stop()` can propagate a
worker failure to its caller: any exception it raises is the captured
failure of a worker tracked by one of the registered tasks (in which case
the child-failure field is not populated by `stop()`). -/
theorem stop_failure_propagation {R : Type} (m : EventManager R) :
    (m.stop).1.childException = m.childException ∧
      ∀ ex, (m.stop).2 = some ex →
        ∃ e ∈ m.eventList, ∃ t ∈ e.threads, t.exception = some ex :=
  ⟨stop_childException_eq m, fun ex h =>
    joinEventsLoop_some_mem m.eventList ex (stop_fail_flag m ex h).2⟩

/-- C1, witness: the amended statement on the concrete failing manager. -/
theorem stop_failure_propagation_witness :
    (mTracked.stop).1.childException = mTracked.childException ∧
      ∃ e ∈ mTracked.eventList, ∃ t ∈ e.threads, t.exception = some 7 :=
  ⟨(stop_failure_propagation mTracked).1,
    (stop_failure_propagation mTracked).2 7 rfl⟩

/-- C2: when, during a driver-loop pass, a task's poll-and-dispatch raises
(after the tasks before it polled cleanly), the driver stores the exception
as the scheduler's child failure, does not touch the remaining tasks of the
pass, exits the loop (later clock readings are never processed), and sets
the running flag to false. -/
theorem driverLoop_fail {R : Type} (m : EventManager R) (t : ℚ)
    (rest : List ℚ) (pre post : List (Event R)) (e : Event R) (ex : Exn)
    (hlist : m.eventList = pre ++ e :: post)
    (hrun : m.shouldContinue = true)
    (hpre : ∀ p ∈ pre, (p.callIfShouldCall t).2 = none)
    (he : (e.callIfShouldCall t).2 = some ex) :
    (m._execute (t :: rest)).childException = some ex ∧
      (m._execute (t :: rest)).running = false ∧
      (m._execute (t :: rest)).eventList =
        pre.map (fun p => (p.callIfShouldCall t).1)
          ++ (e.callIfShouldCall t).1 :: post ∧
      m._execute (t :: rest) = m._execute [t] := by
  have hpass := execPass_fail t e post ex pre hpre he
  have hloop : ∀ rest2 : List ℚ, execLoop m.eventList (t :: rest2) =
      (pre.map (fun p => (p.callIfShouldCall t).1)
        ++ (e.callIfShouldCall t).1 :: post, some ex) := by
    intro rest2
    rw [hlist]
    simp [execLoop, hpass]
  refine ⟨?_, ?_, ?_, ?_⟩ <;> simp [EventManager._execute, hrun, hloop]

/-- C2, witness: on the concrete manager `mDrive`, the pass at clock 1
stores exception 3 as the child failure, stops, and the pass at clock 2
never happens. -/
theorem driverLoop_fail_witness :
    (mDrive._execute [1, 2]).childException = some 3 ∧
      (mDrive._execute [1, 2]).running = false ∧
      mDrive._execute [1, 2] = mDrive._execute [1] := by
  have h := driverLoop_fail mDrive 1 [2] [] [evIdle] evSyncFail 3 rfl rfl
    (by simp) (by rw [evSyncFail_poll])
  exact ⟨h.1, h.2.1, h.2.2.2⟩

/-- C3, counterexample: reaping a single dead failed worker joins it
(marking it joined) and propagates its exception, but — because the raise
skips the removal step — the joined worker is still in the tracked
collection afterwards, refuting "every worker that was joined during the
pass is no longer tracked afterwards, including when the pass ends by
propagating a failure". -/
theorem reap_counterexample :
    (evReap._joinDeadThreads).2 = some 5 ∧
      (evReap._joinDeadThreads).1.threads =
        [{ exception := some 5, isJoined := true, alive := false, daemon := true }] :=
  ⟨rfl, rfl⟩

/-- C3, amended: reaping visits tracked workers in insertion order and
joins every finished one; on a clean pass exactly the joined (dead) workers
are removed from tracking; the first finished worker with a captured
failure short-circuits the pass, propagating its exception and leaving the
suffix untouched — but then the removal step is skipped, so the joined
workers (the failing one included) remain in the tracked collection, merely
marked as joined. -/
theorem reap_amended {R : Type} :
    (∀ e : Event R, (e._joinDeadThreads).2 = none →
        (e._joinDeadThreads).1.threads =
          e.threads.filter (fun t => t.alive && !t.isJoined)) ∧
      (∀ (e : Event R) (pre : List EventThread) (t : EventThread)
          (post : List EventThread) (ex : Exn),
        e.threads = pre ++ t :: post →
        (∀ u ∈ pre, u.alive = true ∨ u.exception = none) →
        t.alive = false → t.exception = some ex →
        (e._joinDeadThreads).2 = some ex ∧
          (e._joinDeadThreads).1.threads =
            pre.map (fun u => if u.alive then u else markJoined u)
              ++ markJoined t :: post) := by
  constructor
  · intro e h
    cases hl : (joinDeadLoop e.threads).2 with
    | some ex =>
      rw [joinDeadThreads_eq_some e ex hl] at h
      simp at h
    | none =>
      rw [joinDeadThreads_eq_none e hl]
      show ((joinDeadLoop e.threads).1).filter (fun t => !t.isJoined) = _
      rw [joinDeadLoop_none_eq e.threads hl, filter_after_deadJoin]
  · intro e pre t post ex hdec hpre ht hex
    have hloop : joinDeadLoop e.threads =
        (pre.map (fun u => if u.alive then u else markJoined u)
          ++ markJoined t :: post, some ex) := by
      rw [hdec]
      exact joinDeadLoop_fail t post ex ht hex pre hpre
    have h2 : (joinDeadLoop e.threads).2 = some ex := by rw [hloop]
    refine ⟨?_, ?_⟩
    · rw [joinDeadThreads_eq_some e ex h2]
    · rw [joinDeadThreads_eq_some e ex h2]
      show (joinDeadLoop e.threads).1 = _
      rw [hloop]

/-- C3, witness: the amended reap behaviour on the concrete event tracking
one dead failed worker. -/
theorem reap_amended_witness :
    (evReap._joinDeadThreads).2 = some 5 ∧
      (evReap._joinDeadThreads).1.threads =
        ([] : List EventThread).map (fun u => if u.alive then u else markJoined u)
          ++ markJoined tDead5 :: [] :=
  reap_amended.2 evReap [] tDead5 [] 5 rfl (by simp) rfl rfl

/-- C4, counterexample: `joinAll` on a task tracking one failing worker
propagates the captured failure, and the tracked collection is not empty
afterwards — the clearing step is skipped by the raise, refuting "after any
joinAll() call finishes — whether by returning or by propagating a failure
— the tracked collection has been cleared". -/
theorem joinAll_counterexample :
    (evDrain.join).2 = some 9 ∧ (evDrain.join).1.threads ≠ [] := by
  refine ⟨rfl, ?_⟩
  show [markJoined tFail9] ≠ []
  simp

/-- C4, amended: `joinAll` with zero tracked workers returns immediately
without error; when every join completes cleanly it clears the tracked
collection; when a join raises it propagates the first captured failure
encountered in insertion order, and the tracked collection is then NOT
cleared — the joined prefix (the failing worker included) remains, marked
joined, and the suffix is untouched. -/
theorem joinAll_amended {R : Type} :
    (∀ e : Event R, e.threads = [] → e.join = (e, none)) ∧
      (∀ e : Event R, (e.join).2 = none → (e.join).1.threads = []) ∧
      (∀ (e : Event R) (ex : Exn), (e.join).2 = some ex →
        ∃ pre t post, e.threads = pre ++ t :: post ∧
          (∀ u ∈ pre, u.exception = none) ∧ t.exception = some ex ∧
          (e.join).1.threads = pre.map markJoined ++ markJoined t :: post) := by
  refine ⟨?_, ?_, ?_⟩
  · intro e h
    rw [join_eq_none e (by rw [h]; simp [joinAllLoop])]
    have h2 : { e with threads := ([] : List EventThread) } = e := by
      obtain ⟨c, tb, cb, sp, lc, ts⟩ := e
      simp at h
      simp [h]
    rw [h2]
  · intro e h
    cases hl : (joinAllLoop e.threads).2 with
    | some ex =>
      rw [join_eq_some e ex hl] at h
      simp at h
    | none =>
      rw [join_eq_none e hl]
  · intro e ex h
    have hl : (joinAllLoop e.threads).2 = some ex := by
      cases hl2 : (joinAllLoop e.threads).2 with
      | some a =>
        rw [join_eq_some e a hl2] at h
        simp at h
        exact congrArg some h
      | none =>
        rw [join_eq_none e hl2] at h
        simp at h
    obtain ⟨pre, t, post, hdec, hpre, hex, hres⟩ :=
      joinAllLoop_fail_decomp e.threads ex hl
    refine ⟨pre, t, post, hdec, hpre, hex, ?_⟩
    rw [join_eq_some e ex hl]
    exact hres

/-- C4, witness: the zero-worker case returns immediately, and a drain of
the concrete failing event leaves the joined worker tracked. -/
theorem joinAll_amended_witness :
    evEmptyW.join = (evEmptyW, none) ∧
      ∃ pre t post, evDrain.threads = pre ++ t :: post ∧
        (∀ u ∈ pre, u.exception = none) ∧ t.exception = some 9 ∧
        (evDrain.join).1.threads = pre.map markJoined ++ markJoined t :: post :=
  ⟨joinAll_amended.1 evEmptyW rfl, joinAll_amended.2.2 evDrain 9 rfl⟩

/-- C10: if `stop()` propagates a failure raised by one of its joins, it
exits with the stop-in-progress flag still set, so any subsequent `stop()`
call on that scheduler is a no-op (returning the state unchanged and
joining nothing) — the scheduler can never complete a drain again. -/
theorem stop_fail_latch {R : Type} (m : EventManager R) (ex : Exn)
    (h : (m.stop).2 = some ex) :
    (m.stop).1.stopInProgress = true ∧
      ((m.stop).1).stop = ((m.stop).1, none) := by
  have h1 := (stop_fail_flag m ex h).1
  exact ⟨h1, stop_of_stopInProgress _ h1⟩

/-- C10, witness: the latch on the concrete manager whose drain raises
exception `9`. -/
theorem stop_fail_latch_witness :
    (mLatch.stop).1.stopInProgress = true ∧
      ((mLatch.stop).1).stop = ((mLatch.stop).1, none) :=
  stop_fail_latch mLatch 9 rfl

end CEvent
